import Mathlib

/-! Verification development for the `mapq` repository (`src/js/app.js`).

The file shallowly embeds the two scripts of `app.js`:

* the search widget (`search`, `onRequestError`, `onRequestLoad`,
  `showError`), modelled as pure functions over an explicit DOM state plus a
  small event machine for the request lifecycle, and
* the MapQuest route-narrative renderer (`displayNarrative`), modelled as a
  pure HTML-string builder.

Localised strings (`navigator.mozL10n.get`) are abstracted as a parameter
`translate : String → String`.
-/

namespace Mapq

/-- JavaScript truthiness of a possibly-absent string value: `undefined`,
`null` and the empty string are falsy, every other string is truthy. -/
def jsTruthy : Option String → Bool
  | none => false
  | some s => s ≠ ""

/-- Source: `var apiURL = 'https://developer.mozilla.org/search.json?q=';`
(src/js/app.js line 11). -/
def apiURL : String := "https://developer.mozilla.org/search.json?q="

/-- The effective search term (src/js/app.js lines 56-59):
`var term = searchInput.value; if(term.length === 0) { term = searchInput.placeholder; }` -/
def effectiveTerm (value placeholder : String) : String :=
  if value.length = 0 then placeholder else value

/-- Source: `var url = apiURL + term;` (src/js/app.js line 61): plain string
concatenation, no URL encoding. -/
def requestURL (value placeholder : String) : String :=
  apiURL ++ effectiveTerm value placeholder

/- Section: DOM model.

The app touches two regions (`#error`, `#results`).  Element content is
either set through `textContent` (safe text assignment) or — only in the
narrative snippet — through `innerHTML` (markup, parsed by the browser).
We keep the two apart in `LinkContent` so that the safe-text property is
expressible. -/

/-- How a DOM node's content was assigned: `textContent` stores the string
as literal character data; `innerHTML` hands the string to the HTML parser. -/
inductive LinkContent where
  | text (s : String)
  | markup (s : String)
deriving DecidableEq, Repr

/-- Strip `<...>` tag spans from a string: what the HTML parser would leave
as visible character data of a markup string (ignoring entities, which the
titles at issue do not contain). -/
def stripMarkup (s : String) : String :=
  (s.toList.foldl
    (fun (acc : String × Bool) c =>
      if acc.2 then (acc.1, c ≠ '>')
      else if c = '<' then (acc.1, true)
      else (acc.1.push c, false))
    ("", false)).1

/-- The text a user sees for a piece of content: literal for `textContent`,
tag-stripped for `innerHTML`. -/
def displayedText : LinkContent → String
  | .text s => s
  | .markup s => stripMarkup s

/-- An anchor element as built by `onRequestLoad` (src/js/app.js lines
115-117): its content and its `href`. -/
structure Link where
  content : LinkContent
  href : String
deriving DecidableEq, Repr

/-- A child node of the `#results` region: the loading text node set by
`results.textContent = ...`, the no-results `<p>`, or an `<h2>` wrapping a
result link. -/
inductive RNode where
  | textNode (s : String)
  | para (s : String)
  | heading (link : Link)
deriving DecidableEq, Repr

/-- The DOM state the search widget mutates: the `#results` region's
children and `hidden` attribute, and the `#error` region's text and
`hidden` attribute. -/
structure DomState where
  resultsChildren : List RNode
  resultsHidden : Bool
  errorText : String
  errorHidden : Bool
deriving DecidableEq, Repr

/-- Assignment `elt.textContent = s` replaces all children with a single text node
(no children at all when `s` is empty). -/
def setTextContent (s : String) : List RNode :=
  if s = "" then [] else [RNode.textNode s]

/-- Embeds `showError` (src/js/app.js lines 151-155):
`errorMsg.textContent = text; errorMsg.hidden = false; results.hidden = true;` -/
def showError (text : String) (d : DomState) : DomState :=
  { d with errorText := text, errorHidden := false, resultsHidden := true }

/-- The error message chosen by `onRequestError` (src/js/app.js lines
83-86): `var errorMessage = request.error; if(!errorMessage) { errorMessage
= translate('searching_error'); }`.  `request.error` is modelled as an
optional string; absence and the empty string are both falsy. -/
def errorMessageOf (translate : String → String) (reqError : Option String) : String :=
  if jsTruthy reqError then reqError.getD "" else translate "searching_error"

/-- Embeds `onRequestError` (src/js/app.js lines 81-89) as a DOM transformer,
given the request's `error` field. -/
def onRequestError (translate : String → String) (reqError : Option String)
    (d : DomState) : DomState :=
  showError (errorMessageOf translate reqError) d

/-- One document of the response's `documents` array:
`{ title: string, url: string }`. -/
structure Doc where
  title : String
  url : String
deriving DecidableEq, Repr

/-- The parsed JSON response body.  `documents` is `none` when the field is
absent or `null` (reading `.length` on it then throws). -/
structure RespBody where
  documents : Option (List Doc)
deriving DecidableEq, Repr

/-- The result of clicking a rendered link (src/js/app.js lines 131-134):
`evt.preventDefault(); window.open(evt.target.href, 'overlay');`.
`opened` records the `(url, window name)` pair passed to `window.open`. -/
structure ClickResult where
  defaultPrevented : Bool
  opened : Option (String × String)
deriving DecidableEq, Repr

/-- The click handler attached to every result link: suppress default
navigation and open the link's `href` in the single shared window named
`"overlay"`. -/
def linkClick (href : String) : ClickResult :=
  { defaultPrevented := true, opened := some (href, "overlay") }

/-- Clicking a rendered node: only headings contain a link to click. -/
def nodeClick : RNode → Option ClickResult
  | .heading l => some (linkClick l.href)
  | _ => none

/-- Rendering of one document (src/js/app.js lines 113-139):
`docLink.textContent = doc.title; docLink.href = doc.url;` wrapped into an
`<h2>` appended to `#results`. -/
def renderDoc (doc : Doc) : RNode :=
  .heading { content := .text doc.title, href := doc.url }

/-- Embeds `onRequestLoad` (src/js/app.js lines 92-148) as a DOM transformer.
`response` is `none` for a `null` parsed body.  A malformed non-null body
(`documents` absent or `null`) makes `documents.length` throw a
`TypeError`; this is modelled by `Except.error` carrying the DOM state at
the throw point (the results region has already been cleared). -/
def onRequestLoad (translate : String → String) (response : Option RespBody)
    (d : DomState) : Except DomState DomState :=
  match response with
  | none => .ok (showError (translate "searching_error") d)
  | some body =>
    -- results.textContent = '';
    let d1 : DomState := { d with resultsChildren := [] }
    match body.documents with
    | none => .error d1
    | some docs =>
      let d2 : DomState :=
        if docs.length = 0 then
          { d1 with resultsChildren := [RNode.para (translate "search_no_results")] }
        else
          { d1 with resultsChildren := docs.map renderDoc }
      .ok { d2 with resultsHidden := false }

/-- The DOM effects of `search()` before the request is created
(src/js/app.js lines 47-53): `results.textContent = translate('searching');
results.hidden = false; errorMsg.hidden = true;` -/
def searchDom (translate : String → String) (d : DomState) : DomState :=
  { d with resultsChildren := setTextContent (translate "searching"),
           resultsHidden := false,
           errorHidden := true }

/- Section: request lifecycle machine.

The module-level `request` variable holds the current `XMLHttpRequest`.
Requests are identified by a generation number.  `search()` aborts the
previous request (every `XMLHttpRequest` has `abort`, so the
`request && request.abort` guard always passes once a request exists),
then installs a fresh one.  Per the XHR specification, after `abort()`
the request fires only an `abort` event: its `load` and `error` listeners
never run, and each request delivers at most one terminal event. -/

/-- The state of the search controller: the DOM, the id held by the
`request` variable (`none` before the first search), the next fresh id,
the ids of aborted requests, and the ids whose terminal (`load`/`error`)
event has already fired. -/
structure AppState where
  dom : DomState
  current : Option Nat
  nextId : Nat
  aborted : List Nat
  terminated : List Nat
deriving DecidableEq, Repr

/-- The program's initial controller state: `var request = null;` and no
request ever issued; the initial DOM (`d0`) comes from the HTML. -/
def initialState (d0 : DomState) : AppState :=
  { dom := d0, current := none, nextId := 0, aborted := [], terminated := [] }

/-- Embeds `search()` (src/js/app.js lines 40-79): abort the outstanding request
if any, set the Searching DOM state, create and send a new request and
store it in `request`.  Returns the new state and the new request's id. -/
def search (translate : String → String) (st : AppState) : AppState × Nat :=
  let aborted :=
    match st.current with
    | some r => r :: st.aborted
    | none => st.aborted
  let r := st.nextId
  ({ dom := searchDom translate st.dom,
     current := some r,
     nextId := r + 1,
     aborted := aborted,
     terminated := st.terminated }, r)

/-- An observable action on the controller: a form submission (which runs
`search()`), or the delivery of a request's `load` or `error` event.  The
event carries the fields (`response`, `error`) of the request it belongs
to. -/
inductive Act where
  | submit
  | loadEv (r : Nat) (response : Option RespBody)
  | errorEv (r : Nat) (reqError : Option String)
deriving DecidableEq, Repr

/-- A terminal event of request `r` can be delivered iff `r` was actually
issued, was not aborted, and has not already delivered its one terminal
event (XHR semantics of `abort()` and of `load`/`error`). -/
def deliverable (st : AppState) (r : Nat) : Bool :=
  decide (r < st.nextId) && !(st.aborted.contains r) && !(st.terminated.contains r)

/-- One step of the controller.  `none` means the action cannot occur
(stale or duplicate event delivery).  The handlers read the shared
`request` variable; a deliverable request is always the current one (see
`deliverable_eq_current`), so passing the event's own payload is faithful.
A handler that throws (`onRequestLoad` on a malformed body) still leaves
its partial DOM mutations behind. -/
def step (translate : String → String) (st : AppState) : Act → Option AppState
  | .submit => some (search translate st).1
  | .loadEv r response =>
    if deliverable st r then
      some (match onRequestLoad translate response st.dom with
            | .ok d => { st with dom := d, terminated := r :: st.terminated }
            | .error d => { st with dom := d, terminated := r :: st.terminated })
    else none
  | .errorEv r reqError =>
    if deliverable st r then
      some { st with dom := onRequestError translate reqError st.dom,
                     terminated := r :: st.terminated }
    else none

/-- Run a sequence of actions; `none` as soon as one is not enabled. -/
def run (translate : String → String) : AppState → List Act → Option AppState
  | st, [] => some st
  | st, a :: acts =>
    match step translate st a with
    | some st1 => run translate st1 acts
    | none => none

/- Section: effect trace of `search()`.

For the ordering claim (UI set to Searching before the request is sent) we
record `search()`'s statements (src/js/app.js lines 40-79) as an ordered
list of effects. -/

/-- One primitive effect performed by `search()`. -/
inductive Eff where
  | abortPrev
  | setResultsText (s : String)
  | setResultsHidden (b : Bool)
  | setErrorHidden (b : Bool)
  | openRequest (url : String)
  | sendRequest
deriving DecidableEq, Repr

/-- The effects of one `search()` call, in program order: abort the
previous request when one exists, show the searching text, unhide results,
hide the error region, open the GET to `requestURL`, send it. -/
def searchTrace (translate : String → String) (hasPrev : Bool)
    (value placeholder : String) : List Eff :=
  (if hasPrev then [Eff.abortPrev] else []) ++
  [Eff.setResultsText (translate "searching"),
   Eff.setResultsHidden false,
   Eff.setErrorHidden true,
   Eff.openRequest (requestURL value placeholder),
   Eff.sendRequest]

/- Section: route narrative renderer.

`displayNarrative` (bottom of src/js/app.js) builds an HTML string from
the route data and assigns it to the `#narrative` element via `innerHTML`. -/

/-- One entry of a maneuver's `signs` array; the entry itself may be
`null`, and its `url` may be absent (the code checks `sign && sign.url`). -/
structure Sign where
  url : Option String
deriving DecidableEq, Repr

/-- One maneuver: an optional icon URL, a `signs` array, and the narrative
text. -/
structure Maneuver where
  iconUrl : Option String
  signs : List (Option Sign)
  narrative : String
deriving DecidableEq, Repr

/-- One leg: its ordered maneuvers. -/
structure Leg where
  maneuvers : List Maneuver
deriving DecidableEq, Repr

/-- A route: its ordered legs. -/
structure Route where
  legs : List Leg
deriving DecidableEq, Repr

/-- The callback's argument: `data.route` may be absent. -/
structure RouteData where
  route : Option Route
deriving DecidableEq, Repr

/-- The `<img>` markup contributed by the icon check:
`if (maneuver.iconUrl) { html += '<img src="' + maneuver.iconUrl + '">  '; }` -/
def iconHtml (m : Maneuver) : String :=
  if jsTruthy m.iconUrl then "<img src=\"" ++ m.iconUrl.getD "" ++ "\">  " else ""

/-- The `<img>` markup contributed by one `signs` entry:
`if (sign && sign.url) { html += '<img src="' + sign.url + '">  '; }` -/
def signHtml : Option Sign → String
  | some sign => if jsTruthy sign.url then "<img src=\"" ++ sign.url.getD "" ++ "\">  " else ""
  | none => ""

/-- The inner `for (k = 0; k < maneuver.signs.length; k++)` loop. -/
def signsHtml : List (Option Sign) → String
  | [] => ""
  | s :: rest => signHtml s ++ signsHtml rest

/-- The markup appended for one maneuver: one `<tr>` holding the images
cell and the narrative cell, exactly as the `+=` statements build it. -/
def maneuverRow (m : Maneuver) : String :=
  "<tr>" ++ "<td>" ++ iconHtml m ++ signsHtml m.signs ++
    ("</td><td>" ++ m.narrative ++ "</td>") ++ "</tr>"

/-- The inner `for (j ...)` loop over one leg's maneuvers. -/
def maneuversHtml : List Maneuver → String
  | [] => ""
  | m :: rest => maneuverRow m ++ maneuversHtml rest

/-- The outer `for (i ...)` loop over the legs. -/
def legsHtml : List Leg → String
  | [] => ""
  | leg :: rest => maneuversHtml leg.maneuvers ++ legsHtml rest

/-- Embeds `displayNarrative(data)`: when `data.route` is truthy, build the table
markup and assign it to the `#narrative` element (whose previous content
`elt` is otherwise left unchanged). -/
def displayNarrative (data : RouteData) (elt : String) : String :=
  match data.route with
  | none => elt
  | some route => "<table><tbody>" ++ legsHtml route.legs ++ "</tbody></table>"

/- Section: auxiliary definitions for the theorems. -/

/-- Inductive invariant of the controller machine: the two regions are not
both visible; while the current request is still outstanding the error
region is hidden (only a terminal event of the current request can unhide
it); and every issued, unaborted request is the current one (each
`search()` aborts the previous current request). -/
structure Inv (st : AppState) : Prop where
  notBoth : st.dom.errorHidden = true ∨ st.dom.resultsHidden = true
  errHiddenWhilePending :
    ∀ r, st.current = some r → r ∉ st.terminated → st.dom.errorHidden = true
  unabortedIsCurrent :
    ∀ r, r < st.nextId → r ∉ st.aborted → st.current = some r

/-- A concrete localisation table for witnesses: each key translates to
itself. -/
def idTranslate : String → String := fun k => k

/-- A concrete initial DOM for witnesses: both regions empty and hidden. -/
def sampleDom : DomState :=
  { resultsChildren := [], resultsHidden := true, errorText := "", errorHidden := true }

/-- The controller state right after the first `search()` from startup,
used by witnesses. -/
def searchingState : AppState :=
  (search idTranslate (initialState sampleDom)).1

/-- The state after the first request's `load` event delivers a `null`
parsed body, used by witnesses. -/
def nullLoadedState : AppState :=
  { searchingState with
    dom := showError "searching_error" searchingState.dom, terminated := [0] }

/- Section: helper lemmas shared by the claim theorems. -/

theorem string_length_eq_zero_iff (s : String) : s.length = 0 ↔ s = "" := by
  constructor
  · intro h
    apply String.ext
    have h2 : s.data.length = 0 := h
    simpa using List.length_eq_zero.mp h2
  · intro h
    subst h
    rfl

theorem join_cons (a : String) (l : List String) :
    String.join (a :: l) = a ++ String.join l := by
  apply String.ext
  simp [String.join_eq, String.data_append]

theorem join_append (l1 l2 : List String) :
    String.join (l1 ++ l2) = String.join l1 ++ String.join l2 := by
  apply String.ext
  simp [String.join_eq, String.data_append]

theorem maneuversHtml_join (ms : List Maneuver) :
    maneuversHtml ms = String.join (ms.map maneuverRow) := by
  induction ms with
  | nil => rfl
  | cons m rest ih => rw [maneuversHtml, List.map_cons, join_cons, ih]

theorem legsHtml_join (legs : List Leg) :
    legsHtml legs =
      String.join (((legs.map Leg.maneuvers).flatten).map maneuverRow) := by
  induction legs with
  | nil => rfl
  | cons leg rest ih =>
    rw [legsHtml, List.map_cons, List.flatten_cons, List.map_append, join_append,
      maneuversHtml_join, ih]

theorem deliverable_iff {st : AppState} {r : Nat} :
    deliverable st r = true ↔
      r < st.nextId ∧ r ∉ st.aborted ∧ r ∉ st.terminated := by
  simp [deliverable, and_assoc]

theorem deliverable_facts {st : AppState} {r : Nat} (hInv : Inv st)
    (hd : deliverable st r = true) :
    st.current = some r ∧ st.dom.errorHidden = true := by
  obtain ⟨h1, h2, h3⟩ := deliverable_iff.mp hd
  have hcur := hInv.unabortedIsCurrent r h1 h2
  exact ⟨hcur, hInv.errHiddenWhilePending r hcur h3⟩

theorem inv_search {translate : String → String} {st : AppState} (hInv : Inv st) :
    Inv (search translate st).1 := by
  refine ⟨Or.inl rfl, fun r hc ht => rfl, fun r hlt hab => ?_⟩
  simp only [search] at hlt hab ⊢
  rcases Nat.lt_succ_iff_lt_or_eq.mp hlt with hlt1 | rfl
  · exfalso
    cases hcur : st.current with
    | none =>
      rw [hcur] at hab
      have := hInv.unabortedIsCurrent r hlt1 hab
      rw [hcur] at this
      exact Option.noConfusion this
    | some c =>
      rw [hcur] at hab
      simp only [List.mem_cons, not_or] at hab
      have := hInv.unabortedIsCurrent r hlt1 hab.2
      rw [hcur] at this
      exact hab.1 (Option.some.inj this).symm
  · rfl

theorem inv_step {translate : String → String} {st st1 : AppState} {a : Act}
    (hInv : Inv st) (h : step translate st a = some st1) : Inv st1 := by
  cases a with
  | submit =>
    simp only [step, Option.some.injEq] at h
    subst h
    exact inv_search hInv
  | loadEv r resp =>
    simp only [step] at h
    by_cases hd : deliverable st r = true
    · rw [if_pos hd] at h
      obtain ⟨hcur, herr⟩ := deliverable_facts hInv hd
      cases resp with
      | none =>
        simp only [onRequestLoad, Option.some.injEq] at h
        subst h
        refine ⟨Or.inr rfl, fun r2 hc ht => ?_, fun r2 hlt hab => hInv.unabortedIsCurrent r2 hlt hab⟩
        exfalso
        rw [hcur] at hc
        exact ht ((Option.some.inj hc) ▸ List.mem_cons_self r st.terminated)
      | some body =>
        cases hdoc : body.documents with
        | none =>
          simp only [onRequestLoad, hdoc, Option.some.injEq] at h
          subst h
          exact ⟨Or.inl herr, fun r2 hc ht => herr,
            fun r2 hlt hab => hInv.unabortedIsCurrent r2 hlt hab⟩
        | some docs =>
          by_cases hlen : docs.length = 0 <;>
            simp only [onRequestLoad, hdoc, hlen, if_pos, if_neg, if_true, if_false,
              Option.some.injEq] at h <;>
            subst h <;>
            exact ⟨Or.inl herr, fun r2 hc ht => herr,
              fun r2 hlt hab => hInv.unabortedIsCurrent r2 hlt hab⟩
    · rw [if_neg hd] at h
      exact Option.noConfusion h
  | errorEv r reqError =>
    simp only [step] at h
    by_cases hd : deliverable st r = true
    · rw [if_pos hd] at h
      obtain ⟨hcur, herr⟩ := deliverable_facts hInv hd
      simp only [Option.some.injEq] at h
      subst h
      refine ⟨Or.inr rfl, fun r2 hc ht => ?_, fun r2 hlt hab => hInv.unabortedIsCurrent r2 hlt hab⟩
      exfalso
      rw [hcur] at hc
      exact ht ((Option.some.inj hc) ▸ List.mem_cons_self r st.terminated)
    · rw [if_neg hd] at h
      exact Option.noConfusion h

theorem inv_run {translate : String → String} :
    ∀ (acts : List Act) {st stF : AppState},
      Inv st → run translate st acts = some stF → Inv stF
  | [], st, stF, hInv, h => by
    simp only [run, Option.some.injEq] at h
    exact h ▸ hInv
  | a :: acts, st, stF, hInv, h => by
    simp only [run] at h
    cases hs : step translate st a with
    | none => rw [hs] at h; exact Option.noConfusion h
    | some st2 =>
      rw [hs] at h
      exact inv_run acts (inv_step hInv hs) h

theorem initial_not_deliverable {d0 : DomState} {r : Nat} :
    deliverable (initialState d0) r = false := by
  simp [deliverable, initialState]

theorem step_initial_submit {translate : String → String} {d0 : DomState} {a : Act}
    {st1 : AppState} (h : step translate (initialState d0) a = some st1) :
    st1 = (search translate (initialState d0)).1 := by
  cases a with
  | submit =>
    simp only [step, Option.some.injEq] at h
    exact h.symm
  | loadEv r resp =>
    rw [step, if_neg (by simp [initial_not_deliverable])] at h
    exact Option.noConfusion h
  | errorEv r reqError =>
    rw [step, if_neg (by simp [initial_not_deliverable])] at h
    exact Option.noConfusion h

theorem inv_first_search (translate : String → String) (d0 : DomState) :
    Inv (search translate (initialState d0)).1 := by
  refine ⟨Or.inl rfl, fun r hc ht => rfl, fun r hlt hab => ?_⟩
  simp only [search, initialState] at hlt hab ⊢
  have hr : r = 0 := by omega
  subst hr
  rfl

theorem step_aborted_subset {translate : String → String} {st st1 : AppState} {a : Act}
    (h : step translate st a = some st1) : st.aborted ⊆ st1.aborted := by
  cases a with
  | submit =>
    simp only [step, Option.some.injEq] at h
    subst h
    cases hcur : st.current with
    | none => simp [search, hcur]
    | some c =>
      simp only [search, hcur]
      exact List.subset_cons_self c st.aborted
  | loadEv r resp =>
    simp only [step] at h
    by_cases hd : deliverable st r = true
    · rw [if_pos hd] at h
      cases ho : onRequestLoad translate resp st.dom with
      | ok d =>
        rw [ho] at h
        simp only [Option.some.injEq] at h
        subst h
        exact fun x hx => hx
      | error d =>
        rw [ho] at h
        simp only [Option.some.injEq] at h
        subst h
        exact fun x hx => hx
    · rw [if_neg hd] at h
      exact Option.noConfusion h
  | errorEv r reqError =>
    simp only [step] at h
    by_cases hd : deliverable st r = true
    · rw [if_pos hd] at h
      simp only [Option.some.injEq] at h
      subst h
      exact fun x hx => hx
    · rw [if_neg hd] at h
      exact Option.noConfusion h

theorem run_aborted_subset {translate : String → String} :
    ∀ (acts : List Act) {st stF : AppState},
      run translate st acts = some stF → st.aborted ⊆ stF.aborted
  | [], st, stF, h => by
    simp only [run, Option.some.injEq] at h
    exact h ▸ fun x hx => hx
  | a :: acts, st, stF, h => by
    simp only [run] at h
    cases hs : step translate st a with
    | none => rw [hs] at h; exact Option.noConfusion h
    | some st2 =>
      rw [hs] at h
      exact fun x hx => run_aborted_subset acts h (step_aborted_subset hs hx)

theorem stale_event_not_delivered {translate : String → String} {st : AppState} {r : Nat}
    (h : r ∈ st.aborted) (resp : Option RespBody) (reqError : Option String) :
    step translate st (Act.loadEv r resp) = none ∧
      step translate st (Act.errorEv r reqError) = none := by
  have hd : deliverable st r = false := by
    simp [deliverable, h]
  constructor <;> simp [step, hd]

theorem maneuverRow_flat (m : Maneuver) :
    maneuverRow m =
      "<tr><td>" ++ (iconHtml m ++ signsHtml m.signs) ++ "</td><td>" ++
        m.narrative ++ "</td></tr>" := by
  apply String.ext
  simp [maneuverRow, String.data_append]

/- Section: claim theorems. -/

/-- C1: a second `search()` while the first request is outstanding aborts
the first request, and an aborted request's completion (`load`/`error`)
callback can never be delivered afterwards — so it cannot overwrite the UI
state produced by the second request: every later UI change comes from the
second (or a newer) request's events. -/
theorem second_search_supersedes_first (translate : String → String) (st0 : AppState) :
    (search translate st0).2 ∈ ((search translate (search translate st0).1).1).aborted ∧
    ∀ (acts : List Act) (stF : AppState) (resp : Option RespBody) (reqError : Option String),
      run translate ((search translate (search translate st0).1).1) acts = some stF →
      step translate stF (Act.loadEv (search translate st0).2 resp) = none ∧
      step translate stF (Act.errorEv (search translate st0).2 reqError) = none := by
  have hmem : (search translate st0).2 ∈
      ((search translate (search translate st0).1).1).aborted := by
    simp [search]
  refine ⟨hmem, fun acts stF resp reqError hrun => ?_⟩
  exact stale_event_not_delivered (run_aborted_subset acts hrun hmem) resp reqError

/-- Witness for C1: concretely, after two searches from startup the first
request (id 0) can deliver neither `load` nor `error`. -/
theorem second_search_supersedes_first_witness :
    step idTranslate ((search idTranslate (search idTranslate (initialState sampleDom)).1).1)
        (Act.loadEv (search idTranslate (initialState sampleDom)).2 none) = none ∧
    step idTranslate ((search idTranslate (search idTranslate (initialState sampleDom)).1).1)
        (Act.errorEv (search idTranslate (initialState sampleDom)).2 none) = none :=
  (second_search_supersedes_first idTranslate (initialState sampleDom)).2
    [] _ none none rfl

/-- C2: the request URL is the fixed base endpoint concatenated with the
effective term, with no encoding: the term itself when it is non-empty,
the placeholder default when it is empty; and `search()`'s trace opens the
request at exactly that URL. -/
theorem request_url_exact_concat (translate : String → String) (hasPrev : Bool)
    (value placeholder : String) :
    (value ≠ "" → requestURL value placeholder = apiURL ++ value) ∧
    (value = "" → requestURL value placeholder = apiURL ++ placeholder) ∧
    Eff.openRequest (requestURL value placeholder) ∈
      searchTrace translate hasPrev value placeholder := by
  refine ⟨fun h => ?_, fun h => ?_, ?_⟩
  · have hne : ¬ value.length = 0 := fun hc => h ((string_length_eq_zero_iff value).mp hc)
    simp [requestURL, effectiveTerm, hne]
  · subst h
    rfl
  · cases hasPrev <;> simp [searchTrace]

/-- Witness for C2 at a concrete non-empty and a concrete empty term. -/
theorem request_url_exact_concat_witness :
    requestURL "css" "apps" = apiURL ++ "css" ∧
    requestURL "" "apps" = apiURL ++ "apps" :=
  ⟨(request_url_exact_concat idTranslate true "css" "apps").1 (by decide),
   (request_url_exact_concat idTranslate true "" "apps").2.1 rfl⟩

/-- C3: for a route, `displayNarrative` produces a single table whose body
is the concatenation, over the legs in order and each leg's maneuvers in
order, of exactly one `<tr>` per maneuver; each row holds the concatenated
icon and sign images (when present) in one cell and the narrative text in
the adjacent cell. -/
theorem displayNarrative_one_row_per_maneuver (route : Route) (elt : String) :
    displayNarrative { route := some route } elt =
      "<table><tbody>" ++
        String.join (((route.legs.map Leg.maneuvers).flatten).map maneuverRow) ++
        "</tbody></table>" ∧
    ∀ m : Maneuver,
      maneuverRow m =
        "<tr><td>" ++ (iconHtml m ++ signsHtml m.signs) ++ "</td><td>" ++
          m.narrative ++ "</td></tr>" := by
  constructor
  · show "<table><tbody>" ++ legsHtml route.legs ++ "</tbody></table>" = _
    rw [legsHtml_join]
  · exact maneuverRow_flat

/-- C4: with the error region hidden, a step turns it visible exactly when
it is (a) an `error` event — surfaced with the request's own `error` field
when that is a non-empty string, else the generic localized message — or
(b) a `load` event with a `null` parsed body, surfaced with the generic
message; both land in the same `showError` state (error shown, results
hidden). -/
theorem error_ui_entry_characterization (translate : String → String)
    {st st1 : AppState} {a : Act}
    (hstep : step translate st a = some st1)
    (hpre : st.dom.errorHidden = true) :
    st1.dom.errorHidden = false ↔
      ((∃ r reqError, a = Act.errorEv r reqError ∧
          st1.dom = showError (errorMessageOf translate reqError) st.dom) ∨
       (∃ r, a = Act.loadEv r none ∧
          st1.dom = showError (translate "searching_error") st.dom)) := by
  cases a with
  | submit =>
    simp only [step, Option.some.injEq] at hstep
    subst hstep
    apply iff_of_false
    · intro hf
      have hf2 : (true : Bool) = false := hf
      exact Bool.noConfusion hf2
    · rintro (⟨r2, e2, heq, _⟩ | ⟨r2, heq, _⟩) <;> exact Act.noConfusion heq
  | loadEv r resp =>
    simp only [step] at hstep
    by_cases hd : deliverable st r = true
    · rw [if_pos hd] at hstep
      cases resp with
      | none =>
        simp only [onRequestLoad, Option.some.injEq] at hstep
        subst hstep
        apply iff_of_true
        · rfl
        · exact Or.inr ⟨r, rfl, rfl⟩
      | some body =>
        cases hdoc : body.documents with
        | none =>
          simp only [onRequestLoad, hdoc, Option.some.injEq] at hstep
          subst hstep
          apply iff_of_false
          · intro hf
            have hf2 : st.dom.errorHidden = false := hf
            rw [hpre] at hf2
            exact Bool.noConfusion hf2
          · rintro (⟨r2, e2, heq, _⟩ | ⟨r2, heq, _⟩)
            · exact Act.noConfusion heq
            · injection heq with h1 h2
              exact Option.noConfusion h2
        | some docs =>
          by_cases hlen : docs.length = 0 <;>
            simp only [onRequestLoad, hdoc, hlen, if_true, if_false,
              Option.some.injEq] at hstep <;>
            subst hstep <;>
            apply iff_of_false <;>
            first
            | (intro hf
               have hf2 : st.dom.errorHidden = false := hf
               rw [hpre] at hf2
               exact Bool.noConfusion hf2)
            | (rintro (⟨r2, e2, heq, _⟩ | ⟨r2, heq, _⟩)
               · exact Act.noConfusion heq
               · injection heq with h1 h2
                 exact Option.noConfusion h2)
    · rw [if_neg hd] at hstep
      exact Option.noConfusion hstep
  | errorEv r reqError =>
    simp only [step] at hstep
    by_cases hd : deliverable st r = true
    · rw [if_pos hd] at hstep
      simp only [Option.some.injEq] at hstep
      subst hstep
      apply iff_of_true
      · rfl
      · exact Or.inl ⟨r, reqError, rfl, rfl⟩
    · rw [if_neg hd] at hstep
      exact Option.noConfusion hstep

/-- Witness for C4: from the Searching state, the first request's `load`
event with a `null` body enters the Error state through `showError` with
the generic message. -/
theorem error_ui_entry_characterization_witness :
    nullLoadedState.dom.errorHidden = false ↔
      ((∃ r reqError, Act.loadEv 0 none = Act.errorEv r reqError ∧
          nullLoadedState.dom =
            showError (errorMessageOf idTranslate reqError) searchingState.dom) ∨
       (∃ r, Act.loadEv 0 none = Act.loadEv r none ∧
          nullLoadedState.dom =
            showError (idTranslate "searching_error") searchingState.dom)) :=
  @error_ui_entry_characterization idTranslate
    searchingState nullLoadedState (Act.loadEv 0 none) rfl rfl

/-- C5: for a response with a non-empty `documents` list, the success
handler replaces the results region with one heading per document in
order, each wrapping a link whose visible text is the title (set as text
content) and whose target is the document URL; clicking any rendered link
suppresses default navigation and opens the URL in the single shared
window named `"overlay"`; the results region ends visible. -/
theorem onRequestLoad_renders_documents (translate : String → String) (d : DomState)
    (docs : List Doc) (h : docs ≠ []) :
    onRequestLoad translate (some { documents := some docs }) d =
      .ok { d with resultsChildren := docs.map renderDoc, resultsHidden := false } ∧
    ∀ doc ∈ docs,
      renderDoc doc =
        RNode.heading { content := LinkContent.text doc.title, href := doc.url } ∧
      nodeClick (renderDoc doc) =
        some { defaultPrevented := true, opened := some (doc.url, "overlay") } := by
  constructor
  · have hlen : ¬ docs.length = 0 := by
      simpa [List.length_eq_zero] using h
    simp [onRequestLoad, hlen]
  · intro doc hm
    exact ⟨rfl, rfl⟩

/-- Witness for C5 at the spec's example response
`{documents: [{title:"A", url:"http://x"}]}`. -/
theorem onRequestLoad_renders_documents_witness :
    onRequestLoad idTranslate
        (some { documents := some [{ title := "A", url := "http://x" }] }) sampleDom =
      .ok { sampleDom with
            resultsChildren :=
              [RNode.heading { content := LinkContent.text "A", href := "http://x" }],
            resultsHidden := false } ∧
    nodeClick (renderDoc { title := "A", url := "http://x" }) =
      some { defaultPrevented := true, opened := some ("http://x", "overlay") } :=
  ⟨(onRequestLoad_renders_documents idTranslate sampleDom
      [{ title := "A", url := "http://x" }] (by decide)).1,
   ((onRequestLoad_renders_documents idTranslate sampleDom
      [{ title := "A", url := "http://x" }] (by decide)).2
      { title := "A", url := "http://x" } (by decide)).2⟩

/-- C6: for the response `{documents: []}`, the success handler clears the
results region and renders exactly one paragraph holding the localized
"no results" message, and the results region ends visible (Results state);
the error region is untouched. -/
theorem onRequestLoad_empty_no_results (translate : String → String) (d : DomState) :
    onRequestLoad translate (some { documents := some [] }) d =
      .ok { d with resultsChildren := [RNode.para (translate "search_no_results")],
                   resultsHidden := false } := rfl

/-- C7: `search()` performs its UI mutations — show the localized loading
text, unhide the results region, hide the error region — strictly before
the `send` of the network request (the last effect of its trace), and the
state it installs is exactly the Searching DOM state. -/
theorem search_shows_searching_before_send (translate : String → String)
    (hasPrev : Bool) (value placeholder : String) :
    (∃ pre, searchTrace translate hasPrev value placeholder = pre ++ [Eff.sendRequest] ∧
       Eff.setResultsText (translate "searching") ∈ pre ∧
       Eff.setResultsHidden false ∈ pre ∧
       Eff.setErrorHidden true ∈ pre ∧
       pre.count Eff.sendRequest = 0) ∧
    ∀ st : AppState,
      ((search translate st).1).dom =
        { st.dom with resultsChildren := setTextContent (translate "searching"),
                      resultsHidden := false, errorHidden := true } := by
  constructor
  · refine ⟨(if hasPrev then [Eff.abortPrev] else []) ++
      [Eff.setResultsText (translate "searching"), Eff.setResultsHidden false,
       Eff.setErrorHidden true, Eff.openRequest (requestURL value placeholder)],
      ?_, ?_, ?_, ?_, ?_⟩ <;>
      cases hasPrev <;> simp [searchTrace]
  · intro st
    rfl

/-- C8: starting from the program's initial controller state, after any
non-empty sequence of `search()` calls and request-event deliveries the
error region and the results region are never both visible: `search()`
shows results and hides the error region, and `showError` shows the error
region and hides results. -/
theorem error_results_regions_mutually_exclusive (translate : String → String)
    (d0 : DomState) (a : Act) (acts : List Act) (stF : AppState)
    (h : run translate (initialState d0) (a :: acts) = some stF) :
    stF.dom.errorHidden = true ∨ stF.dom.resultsHidden = true := by
  simp only [run] at h
  cases hs : step translate (initialState d0) a with
  | none =>
    rw [hs] at h
    exact Option.noConfusion h
  | some st1 =>
    rw [hs] at h
    have h1 : st1 = (search translate (initialState d0)).1 := step_initial_submit hs
    subst h1
    exact (inv_run acts (inv_first_search translate d0) h).notBoth

/-- Witness for C8 at the concrete startup sequence of one submit. -/
theorem error_results_regions_mutually_exclusive_witness :
    ((search idTranslate (initialState sampleDom)).1).dom.errorHidden = true ∨
    ((search idTranslate (initialState sampleDom)).1).dom.resultsHidden = true :=
  error_results_regions_mutually_exclusive idTranslate sampleDom Act.submit [] _ rfl

/-- C9: the success handler guards only against a strictly-`null` parsed
body: a non-null body whose `documents` field is absent or `null` makes
`onRequestLoad` throw (modelled by `Except.error`) right after clearing
the results region, leaving the error region untouched — the Error UI
state is never shown for such bodies — while a `null` body is handled and
routed to `showError`. -/
theorem onRequestLoad_malformed_body_throws (translate : String → String) (d : DomState) :
    onRequestLoad translate (some { documents := none }) d =
      .error { d with resultsChildren := [] } ∧
    onRequestLoad translate none d =
      .ok (showError (translate "searching_error") d) :=
  ⟨rfl, rfl⟩

/-- C10: document titles are rendered through safe text assignment
(`textContent`), so a link's visible text equals the title character for
character; a markup-like title such as `<b>A</b>` is displayed literally,
whereas inserting the same string as markup (`innerHTML`) would display
only `A`. -/
theorem doc_title_safe_text_assignment (title url : String) :
    renderDoc { title := title, url := url } =
      RNode.heading { content := LinkContent.text title, href := url } ∧
    displayedText (LinkContent.text title) = title ∧
    displayedText (LinkContent.text "<b>A</b>") = "<b>A</b>" ∧
    displayedText (LinkContent.markup "<b>A</b>") = "A" :=
  ⟨rfl, rfl, rfl, by decide⟩

end Mapq
